import Mathlib

/-!
# tf2-autopricer: the listing-event filter and the periodic scheduler

A shallow embedding of `src/websocket/websocket.js` (`handleEvent` and the
`message` listener of `initBptfWebSocket`) and of `src/modules/scheduler.js`
(`scheduleTasks`).

Modelling conventions.

* An event is the decoded JSON object of the feed, typed after the JSDoc of
  `handleEvent`: optional fields are `Option`s, and every JavaScript truthiness
  test of the source is kept (`""` and an absent field are falsy, the number
  `0` is falsy). An entry of `item.attributes` may be a primitive, `null` or
  an object, since the source tests `typeof attribute === "object"`.
* Numbers are the integer-valued numbers, for which `String(n)` is the decimal
  numeral.
* The collaborators passed to `initBptfWebSocket` are fields of `Config`.
  The two sinks and the schema lookup may throw; what they do is recorded as
  a `Completion` or a `Resolution`. `getAllowedItemNames`, `validateObject`
  and `createCurrencyObject` are total functions: they return a value and do
  not throw.
* A run of statements is a `Run`: the sink invocations performed, in order,
  and whether control left the statements by an uncaught exception. A test
  that may throw has a value in `Option Bool`, `none` standing for the throw.
  Two exceptions are raised outside the `try` blocks of `handleEvent`: the
  `TypeError` of `attribute.float_value` on a `null` attribute entry, and the
  `SyntaxError` of `new RegExp` on an invalid pattern.
* `String.prototype.normalize("NFKD")` and `toLowerCase` depend on the Unicode
  tables of the runtime and are fields of `Unicode`.
* `new RegExp("\\b" + detail + "\\b", "i")` is evaluated here when `detail` is a
  non-empty word of the characters `A`-`Z`, `a`-`z`, `0`-`9`: the pattern is
  then the literal word between two `\b` assertions. For any other `detail`
  the source is interpolated unescaped and may contain pattern operators or be
  invalid; the result is then asked of the field `regExp` of `Unicode`, the
  engine of the runtime, about which nothing is assumed.
-/

namespace Autopricer

/-! ## Data model -/

/-- An entry of `item.attributes`: a value whose `typeof` is not `"object"`,
the value `null` (whose `typeof` is `"object"`), or an object with an optional
numeric `float_value`. -/
inductive Attribute where
  | primitive : Attribute
  | null : Attribute
  | object (float_value : Option Int) : Attribute
  deriving DecidableEq

/-- The `item` object of a payload. -/
structure Item where
  name : Option String
  attributes : Option (List Attribute)
  deriving DecidableEq

/-- The `payload` object of an event; `Cur` is the type of the raw
`currencies` value. -/
structure Payload (Cur : Type) where
  item : Option Item
  steamid : String
  intent : String
  currencies : Cur
  details : Option String
  userAgent : Option String
  deriving DecidableEq

/-- An event `e` of the feed: the discriminator `e.event` and `e.payload`. -/
structure Event (Cur : Type) where
  event : String
  payload : Option (Payload Cur)
  deriving DecidableEq

/-- How a call of a sink ends. -/
inductive Completion where
  | returns : Completion
  | throws : Completion
  deriving DecidableEq

/-- What `schemaManager.schema.getSkuFromName` does for a name. -/
inductive Resolution (Sku : Type) where
  | throws : Resolution Sku
  | null : Resolution Sku
  | undefined : Resolution Sku
  | sku (s : Sku) : Resolution Sku
  deriving DecidableEq

/-- An invocation of one of the two sinks, with its arguments in call order. -/
inductive SinkCall (NCur Sku : Type) where
  | insertListing (item : Item) (sku : Sku) (currencies : NCur)
      (intent : String) (steamid : String) : SinkCall NCur Sku
  | deleteRemovedListing (steamid : String) (name : String)
      (intent : String) : SinkCall NCur Sku
  deriving DecidableEq

/-- The argument object of `initBptfWebSocket`. `blockedAttributes` lists the
own properties of the object in order, key first. -/
structure Config (Cur NCur Sku : Type) where
  getAllowedItemNames : Unit → List String
  getSkuFromName : String → Resolution Sku
  validateObject : Cur → Bool
  createCurrencyObject : Cur → NCur
  insertListing : Item → Sku → NCur → String → String → Completion
  deleteRemovedListing : String → String → String → Completion
  excludedSteamIds : List String
  excludedListingDescriptions : List String
  blockedAttributes : List (String × Int)

/-- The built-ins of the runtime used on `details`: the two Unicode string
methods, and `regExp source`, the result of `new RegExp(source, "i")` for a
source outside the word patterns evaluated here: `none` when the constructor
throws a `SyntaxError`, otherwise the `test` method of the expression. -/
structure Unicode where
  normalizeNFKD : List Char → List Char
  toLowerCase : List Char → List Char
  regExp : String → Option (List Char → Bool)

/-- The effect of running statements: the sink invocations made, in order,
and whether an exception left the statements uncaught. -/
structure Run (α : Type) where
  calls : List α
  threw : Bool
  deriving DecidableEq

namespace Run

variable {α : Type}

/-- Statements that call no sink and complete normally (`return;`). -/
def done : Run α := ⟨[], false⟩

/-- A `throw` statement. -/
def raise : Run α := ⟨[], true⟩

/-- A call of a sink: the invocation is made, and it throws or returns. -/
def invoke (call : α) (c : Completion) : Run α :=
  ⟨[call], decide (c = Completion.throws)⟩

/-- The statement `try { body } catch (e) { ... }` with a handler that calls no
sink and does not throw. -/
def tryCatch (body : Run α) : Run α := ⟨body.calls, false⟩

/-- Sequencing: `second` runs only if `first` did not throw. -/
def andThen (first second : Run α) : Run α :=
  if first.threw then first else ⟨first.calls ++ second.calls, second.threw⟩

end Run

/-- The method `Array.prototype.some` with a callback that may throw: the
entries are visited in order, the visit stops at the first entry for which the
callback throws (`none`) or returns `true`. -/
def arraySome {α : Type} (callback : α → Option Bool) : List α → Option Bool
  | [] => some false
  | x :: rest =>
    match callback x with
    | none => none
    | some true => some true
    | some false => arraySome callback rest

/-- The method `Array.prototype.forEach` with a callback that has effects: an
exception leaving one call ends the loop. -/
def forEach {α β : Type} (callback : α → Run β) : List α → Run β
  | [] => Run.done
  | x :: rest => (callback x).andThen (forEach callback rest)

/-! ## JavaScript primitives used by the handler -/

/-- Truthiness of an optional string: present and not `""`. -/
def truthy : Option String → Bool
  | none => false
  | some s => decide (s ≠ "")

/-- The conversion `String(n)` of a number. -/
def jsString (n : Int) : String := toString n

/-- Whether the first list starts the second. -/
def startsWith : List Char → List Char → Bool
  | [], _ => true
  | _ :: _, [] => false
  | k :: ks, c :: cs => decide (k = c) && startsWith ks cs

/-- The test `s.includes(key)` on the characters of the strings. -/
def includes : List Char → List Char → Bool
  | [], key => startsWith key []
  | c :: cs, key => startsWith key (c :: cs) || includes cs key

/-- White space and line terminators removed by `String.prototype.trim`. -/
def isWhiteSpace (c : Char) : Bool :=
  [0x9, 0xA, 0xB, 0xC, 0xD, 0x20, 0xA0, 0x1680, 0x2000, 0x2001, 0x2002, 0x2003,
   0x2004, 0x2005, 0x2006, 0x2007, 0x2008, 0x2009, 0x200A, 0x2028, 0x2029,
   0x202F, 0x205F, 0x3000, 0xFEFF].contains c.toNat

/-- The method `String.prototype.trim`. -/
def trim (s : List Char) : List Char :=
  ((s.dropWhile isWhiteSpace).reverse.dropWhile isWhiteSpace).reverse

/-- The class `\w` of a pattern without the `u` flag. -/
def isWordChar (c : Char) : Bool := c.isAlphanum || decide (c = '_')

/-- Case folding of the `i` flag, for the comparison with an ASCII pattern
character. -/
def canonicalize (c : Char) : Char := c.toUpper

/-- A plain alphanumeric word: not empty, and made of the characters `A`-`Z`,
`a`-`z` and `0`-`9`. -/
def isAlphanumericWord (s : String) : Prop :=
  s.data ≠ [] ∧ ∀ c ∈ s.data, c.isAlphanum = true

/-- The test that decides `isAlphanumericWord`. -/
def isWord (s : String) : Bool :=
  !s.data.isEmpty && s.data.all Char.isAlphanum

/-- The terms of the pattern `\b<detail>\b`. -/
inductive Atom where
  | wordBoundary : Atom
  | char (c : Char) : Atom
  deriving DecidableEq

/-- The terms of the pattern source `"\\b" + detail + "\\b"` for an
alphanumeric word `detail`, whose characters are literal pattern characters. -/
def pattern (detail : String) : List Atom :=
  Atom.wordBoundary :: (detail.data.map Atom.char ++ [Atom.wordBoundary])

/-- The assertion `\b` between the character before the current position and
the rest of the input. -/
def atBoundary (prev : Option Char) (rest : List Char) : Bool :=
  ((prev.map isWordChar).getD false) != ((rest.head?.map isWordChar).getD false)

/-- Matching of the terms at the current position. -/
def matchHere : List Atom → Option Char → List Char → Bool
  | [], _, _ => true
  | Atom.wordBoundary :: atoms, prev, rest =>
      atBoundary prev rest && matchHere atoms prev rest
  | Atom.char _ :: _, _, [] => false
  | Atom.char c :: atoms, _, x :: rest =>
      decide (canonicalize x = canonicalize c) && matchHere atoms (some x) rest

/-- The search of `RegExp.prototype.test`: every start position, left to
right. -/
def matchFrom (atoms : List Atom) : Option Char → List Char → Bool
  | prev, [] => matchHere atoms prev []
  | prev, x :: rest => matchHere atoms prev (x :: rest) || matchFrom atoms (some x) rest

/-- The method `test` of `new RegExp("\\b" + detail + "\\b", "i")` for an
alphanumeric word `detail`. -/
def wordTest (detail : String) (text : List Char) : Bool :=
  matchFrom (pattern detail) none text

/-- The expression `new RegExp("\\b" + detail + "\\b", "i")`: `none` when the
constructor throws, otherwise the `test` method of the expression. -/
def newRegExp (u : Unicode) (detail : String) : Option (List Char → Bool) :=
  if isWord detail then some (wordTest detail)
  else u.regExp ("\\b" ++ detail ++ "\\b")

/-- The text `listingDetails.normalize("NFKD").toLowerCase().trim()`. -/
def normalizedDetails (u : Unicode) (listingDetails : String) : List Char :=
  trim (u.toLowerCase (u.normalizeNFKD listingDetails.data))

/-! ## The filter of `handleEvent` -/

section Handler

variable {Cur NCur Sku : Type}

/-- The callback given to `attributes.some` at lines 85-96: the entry is an
object with a truthy `float_value` whose string form is among the string forms
of the values of `blockedAttributes`, while no key of `blockedAttributes`
occurs in the item name. On a `null` entry, `typeof attribute === "object"`
holds and `attribute.float_value` throws a `TypeError`. -/
def blockedCallback (blockedAttributes : List (String × Int)) (name : String) :
    Attribute → Option Bool
  | Attribute.primitive => some false
  | Attribute.null => none
  | Attribute.object none => some false
  | Attribute.object (some v) =>
    some (decide (v ≠ 0) &&
      (blockedAttributes.map fun kv => jsString kv.2).contains (jsString v) &&
      !(blockedAttributes.map fun kv => kv.1).any fun key =>
        includes name.data key.data)

/-- The condition of the `if` at lines 83-97,
`attributes && attributes.some(callback)`; `none` when the callback throws. -/
def attributeBlocked (blockedAttributes : List (String × Int))
    (attributes : Option (List Attribute)) (name : String) : Option Bool :=
  match attributes with
  | none => some false
  | some attrs => arraySome (blockedCallback blockedAttributes name) attrs

/-- The test `excludedListingDescriptions.some(detail => new RegExp(...).test(
text))` of lines 106-110; `none` when a `new RegExp` throws. -/
def descriptionExcluded (u : Unicode) (excludedListingDescriptions : List String)
    (listingDetails : String) : Option Bool :=
  arraySome
    (fun detail =>
      match newRegExp u detail with
      | none => none
      | some test => some (test (normalizedDetails u listingDetails)))
    excludedListingDescriptions

/-- The body of the `try` block at lines 112-121. -/
def resolveAndInsert (cfg : Config Cur NCur Sku) (response_item : Item)
    (name : String) (currencies : NCur) (intent steamid : String) :
    Run (SinkCall NCur Sku) :=
  match cfg.getSkuFromName name with
  | Resolution.throws => Run.raise
  | Resolution.null => Run.raise
  | Resolution.undefined => Run.raise
  | Resolution.sku sku =>
    Run.invoke (SinkCall.insertListing response_item sku currencies intent steamid)
      (cfg.insertListing response_item sku currencies intent steamid)

/-- The case `"listing-update"` of the `switch`. The attribute test and the
description test are evaluated outside the `try` block, so an exception they
raise leaves `handleEvent`. -/
def handleUpdate (cfg : Config Cur NCur Sku) (u : Unicode) (payload : Payload Cur)
    (response_item : Item) (name : String) : Run (SinkCall NCur Sku) :=
  let steamid := payload.steamid
  let intent := payload.intent
  let listingDetails := payload.details
  if !truthy payload.userAgent then Run.done
  else if !cfg.validateObject payload.currencies then Run.done
  else
    match attributeBlocked cfg.blockedAttributes response_item.attributes name with
    | none => Run.raise
    | some true => Run.done
    | some false =>
      let currencies := cfg.createCurrencyObject payload.currencies
      if !cfg.excludedSteamIds.any (fun id => decide (steamid = id)) then
        match listingDetails with
        | none => Run.done
        | some details =>
          if details = "" then Run.done
          else
            match descriptionExcluded u cfg.excludedListingDescriptions details with
            | none => Run.raise
            | some true => Run.done
            | some false =>
              Run.tryCatch
                (resolveAndInsert cfg response_item name currencies intent steamid)
      else Run.done

/-- The case `"listing-delete"` of the `switch`. -/
def handleDelete (cfg : Config Cur NCur Sku) (payload : Payload Cur)
    (name : String) : Run (SinkCall NCur Sku) :=
  Run.tryCatch
    (Run.invoke (SinkCall.deleteRemovedListing payload.steamid name payload.intent)
      (cfg.deleteRemovedListing payload.steamid name payload.intent))

/-- The function `handleEvent(e)`. -/
def handleEvent (cfg : Config Cur NCur Sku) (u : Unicode) (e : Event Cur) :
    Run (SinkCall NCur Sku) :=
  match e.payload with
  | none => Run.done
  | some payload =>
    match payload.item with
    | none => Run.done
    | some response_item =>
      match response_item.name with
      | none => Run.done
      | some name =>
        if name = "" then Run.done
        else if (cfg.getAllowedItemNames ()).contains name then
          if e.event = "listing-update" then handleUpdate cfg u payload response_item name
          else if e.event = "listing-delete" then handleDelete cfg payload name
          else Run.done
        else Run.done

/-- The decoded value `json` of a message: one event or an array of events. -/
inductive Message (Cur : Type) where
  | single (e : Event Cur) : Message Cur
  | batch (es : List (Event Cur)) : Message Cur

/-- The counters `updateCount` and `deleteCount` of the batch branch; they are
only printed. -/
def countKinds (es : List (Event Cur)) : Nat × Nat :=
  es.foldl
    (fun acc ev =>
      if ev.event = "listing-update" then (acc.1 + 1, acc.2)
      else if ev.event = "listing-delete" then (acc.1, acc.2 + 1)
      else acc)
    (0, 0)

/-- The `message` listener, after `JSON.parse`. -/
def onMessage (cfg : Config Cur NCur Sku) (u : Unicode) :
    Message Cur → Run (SinkCall NCur Sku)
  | Message.batch es => forEach (handleEvent cfg u) es
  | Message.single e => handleEvent cfg u e

end Handler

/-! ## The scheduler -/

/-- The callables handed to `scheduleTasks`. -/
inductive Job where
  | calculateAndEmitPrices : Job
  | cleanupOldKeyPrices : Job
  | checkKeyPriceStability : Job
  | updateMovingAverages : Job
  deriving DecidableEq

/-- The arguments `db` and `pgp` a timer callback passes on. -/
inductive JobArg where
  | db : JobArg
  | pgp : JobArg
  deriving DecidableEq

/-- One call `setInterval(callback, delay)`: the job the callback runs, the
arguments the callback gives it, and the delay in milliseconds. -/
structure Timer where
  job : Job
  args : List JobArg
  delay : Nat
  deriving DecidableEq

/-- The built-in `setInterval` on the list of registered timers. -/
def setInterval (timers : List Timer) (job : Job) (args : List JobArg) (delay : Nat) :
    List Timer :=
  timers ++ [⟨job, args, delay⟩]

/-- The function `scheduleTasks`, from the timers registered before it. -/
def scheduleTasks (timers : List Timer) : List Timer :=
  let t1 := setInterval timers Job.calculateAndEmitPrices [] (15 * 60 * 1000)
  let t2 := setInterval t1 Job.cleanupOldKeyPrices [JobArg.db] (30 * 60 * 1000)
  let t3 := setInterval t2 Job.checkKeyPriceStability [] (30 * 60 * 1000)
  setInterval t3 Job.updateMovingAverages [JobArg.db, JobArg.pgp] (15 * 60 * 1000)

/-! ## Vocabulary of the properties -/

/-- Whether a sink invocation is a call of `insertListing`. -/
def isInsert {NCur Sku : Type} : SinkCall NCur Sku → Bool
  | SinkCall.insertListing _ _ _ _ _ => true
  | SinkCall.deleteRemovedListing _ _ _ => false

/-- The configuration with another `blockedAttributes` object. -/
def withBlockedAttributes {Cur NCur Sku : Type} (cfg : Config Cur NCur Sku)
    (blocked : List (String × Int)) : Config Cur NCur Sku :=
  ⟨cfg.getAllowedItemNames, cfg.getSkuFromName, cfg.validateObject,
    cfg.createCurrencyObject, cfg.insertListing, cfg.deleteRemovedListing,
    cfg.excludedSteamIds, cfg.excludedListingDescriptions, blocked⟩

/-- The last character read: the last one of `consumed`, or `prev` when
nothing was consumed. -/
def lastSeen (prev : Option Char) (consumed : List Char) : Option Char :=
  consumed.foldl (fun _ c => some c) prev

/-- Whole-word occurrence, in the words of the specification: `entry` occurs in
`text`, letter case ignored, and neither the character before the occurrence
nor the character after it, when there is one, is a word character. -/
def OccursAsWholeWord (entry text : List Char) : Prop :=
  ∃ pre mid post, text = pre ++ mid ++ post ∧
    mid.map canonicalize = entry.map canonicalize ∧
    (∀ c, pre.getLast? = some c → isWordChar c = false) ∧
    (∀ c, post.head? = some c → isWordChar c = false)

/-- The configuration with another `excludedListingDescriptions` array. -/
def withExcludedDescriptions {Cur NCur Sku : Type} (cfg : Config Cur NCur Sku)
    (excluded : List String) : Config Cur NCur Sku :=
  ⟨cfg.getAllowedItemNames, cfg.getSkuFromName, cfg.validateObject,
    cfg.createCurrencyObject, cfg.insertListing, cfg.deleteRemovedListing,
    cfg.excludedSteamIds, excluded, cfg.blockedAttributes⟩

/-! ## Concrete configurations and events for the instances -/

/-- The built-ins restricted to ASCII text, where NFKD changes nothing and
`toLowerCase` lowers the letters `A`-`Z`. In the instances below the engine
is asked about one source only, the unterminated group `\b(\b`, for which
`new RegExp` throws a `SyntaxError`; it is set to answer `SyntaxError`. -/
def asciiUnicode : Unicode := ⟨id, fun s => s.map Char.toLower, fun _ => none⟩

/-- A configuration: three allowed names, a lookup that throws for `"Bad"`,
returns `null` for `"Gone"`, and a delete sink that always throws. Raw
currencies are an optional number of keys. -/
def sampleConfig (blocked : List (String × Int)) : Config (Option Nat) Nat String :=
  ⟨fun _ => ["Blue Hat", "Blue Beanie", "Bad", "Gone"],
    fun n =>
      if n = "Bad" then Resolution.throws
      else if n = "Gone" then Resolution.null
      else Resolution.sku (n ++ ";6"),
    fun c => c.isSome,
    fun c => c.getD 0,
    fun _ _ _ _ _ => Completion.returns,
    fun _ _ _ => Completion.throws,
    ["76561198000000666"],
    ["scam"],
    blocked⟩

/-- An item with one attribute object carrying `float_value`. -/
def sampleItem (name : String) (float_value : Int) : Item :=
  ⟨some name, some [Attribute.object (some float_value)]⟩

/-- An event of the given kind for the given item, from a bot, with valid
currencies. -/
def sampleEvent (kind : String) (item : Item) (details : Option String) :
    Event (Option Nat) :=
  ⟨kind, some ⟨some item, "76561198000000001", "sell", some 3, details, some "bot"⟩⟩

/-- An event of the given kind for an item whose only attribute entry is
`null`. -/
def nullAttributeEvent (kind : String) (name : String) : Event (Option Nat) :=
  sampleEvent kind ⟨some name, some [Attribute.null]⟩ (some "hello")

/-- A batch of three events: an update whose sku lookup throws, an update with
a `null` attribute entry, and a delete. -/
def faultyBatch : List (Event (Option Nat)) :=
  [sampleEvent "listing-update" (sampleItem "Bad" 7) (some "hello"),
   nullAttributeEvent "listing-update" "Blue Hat",
   sampleEvent "listing-delete" (sampleItem "Blue Beanie" 5) none]

/-- A batch of five events: a forwarded update, a delete, an update whose sku
lookup throws, an update dropped by the attribute-block rule, and a second
forwarded update. -/
def sampleBatch : List (Event (Option Nat)) :=
  [sampleEvent "listing-update" (sampleItem "Blue Hat" 5) (some "selling fast"),
   sampleEvent "listing-delete" (sampleItem "Blue Beanie" 5) none,
   sampleEvent "listing-update" (sampleItem "Bad" 7) (some "hello"),
   sampleEvent "listing-update" (sampleItem "Blue Beanie" 5) (some "hello"),
   sampleEvent "listing-update" (sampleItem "Blue Hat" 9) (some "hello")]

/-! ## Auxiliary facts -/

section Facts

variable {Cur NCur Sku : Type}

theorem arraySome_of_total {α : Type} (callback : α → Option Bool) (g : α → Bool) :
    ∀ xs : List α, (∀ x ∈ xs, callback x = some (g x)) →
      arraySome callback xs = some (xs.any g)
  | [], _ => rfl
  | x :: rest, h => by
      have hx := h x (List.mem_cons_self _ _)
      have hrest := arraySome_of_total callback g rest
        (fun y hy => h y (List.mem_cons_of_mem _ hy))
      unfold arraySome
      rw [hx]
      cases hg : g x <;> simp [hg, hrest]

theorem andThen_done {β : Type} (r : Run β) : (Run.done : Run β).andThen r = r := by
  cases r
  simp [Run.andThen, Run.done]

theorem forEach_quiet {α β : Type} (f : α → Run β) :
    ∀ xs : List α, (∀ x ∈ xs, (f x).threw = false) →
      forEach f xs = ⟨xs.flatMap (fun x => (f x).calls), false⟩
  | [], _ => rfl
  | x :: rest, h => by
      have hx := h x (List.mem_cons_self _ _)
      have hrest := forEach_quiet f rest (fun y hy => h y (List.mem_cons_of_mem _ hy))
      simp [forEach, Run.andThen, hx, hrest]

theorem forEach_abort {α β : Type} (f : α → Run β) (ev : α) (post : List α)
    (hev : (f ev).threw = true) :
    ∀ pre : List α, (∀ x ∈ pre, (f x).threw = false) →
      forEach f (pre ++ ev :: post) =
        ⟨pre.flatMap (fun x => (f x).calls) ++ (f ev).calls, true⟩
  | [], _ => by
      cases hr : f ev with
      | mk calls threw =>
        rw [hr] at hev
        simp only at hev
        subst hev
        simp [forEach, Run.andThen, hr]
  | x :: pre, h => by
      have hx := h x (List.mem_cons_self _ _)
      have hpre := forEach_abort f ev post hev pre
        (fun y hy => h y (List.mem_cons_of_mem _ hy))
      simp [forEach, Run.andThen, hx, hpre]

theorem forEach_eraseIdx {α β : Type} (f : α → Run β) :
    ∀ (xs : List α) (i : Nat) (hi : i < xs.length), f xs[i] = Run.done →
      forEach f xs = forEach f (xs.eraseIdx i)
  | [], _, hi, _ => absurd hi (Nat.not_lt_zero _)
  | x :: rest, 0, _, h => by
      simp only [List.getElem_cons_zero] at h
      simp only [forEach, h, andThen_done, List.eraseIdx_cons_zero]
  | x :: rest, i + 1, hi, h => by
      simp only [List.getElem_cons_succ] at h
      simp only [forEach, List.eraseIdx_cons_succ]
      rw [forEach_eraseIdx f rest i (Nat.lt_of_succ_lt_succ hi) h]

theorem forEach_record {α : Type} (xs : List α) :
    forEach (fun x => Run.invoke x Completion.returns) xs = ⟨xs, false⟩ := by
  rw [forEach_quiet _ xs (fun _ _ => rfl)]
  have h : ∀ ys : List α, ys.flatMap (fun x => [x]) = ys := by
    intro ys
    induction ys with
    | nil => rfl
    | cons y ys ih => simp [List.flatMap_cons, ih]
  simp only [Run.invoke, h]

theorem handleUpdate_eq (cfg : Config Cur NCur Sku) (u : Unicode) (p : Payload Cur)
    (it : Item) (nm : String) :
    handleUpdate cfg u p it nm =
      if truthy p.userAgent = true ∧ cfg.validateObject p.currencies = true then
        match attributeBlocked cfg.blockedAttributes it.attributes nm with
        | none => Run.raise
        | some true => Run.done
        | some false =>
          if p.steamid ∈ cfg.excludedSteamIds then Run.done
          else
            match p.details with
            | none => Run.done
            | some d =>
              if d = "" then Run.done
              else
                match descriptionExcluded u cfg.excludedListingDescriptions d with
                | none => Run.raise
                | some true => Run.done
                | some false =>
                  Run.tryCatch (resolveAndInsert cfg it nm
                    (cfg.createCurrencyObject p.currencies) p.intent p.steamid)
      else Run.done := by
  unfold handleUpdate
  cases hua : truthy p.userAgent <;> cases hval : cfg.validateObject p.currencies <;> simp
  cases attributeBlocked cfg.blockedAttributes it.attributes nm with
  | none => rfl
  | some b =>
    cases b with
    | true => rfl
    | false =>
      by_cases hs : p.steamid ∈ cfg.excludedSteamIds
      · have : ¬ ∀ x ∈ cfg.excludedSteamIds, ¬ p.steamid = x := fun h => h _ hs rfl
        simp [hs, this]
      · have : ∀ x ∈ cfg.excludedSteamIds, ¬ p.steamid = x := by
          rintro x hx rfl
          exact hs hx
        simp [hs, this]

theorem resolveAndInsert_calls_length (cfg : Config Cur NCur Sku) (it : Item)
    (nm : String) (cur : NCur) (intent steamid : String) :
    (Run.tryCatch (resolveAndInsert cfg it nm cur intent steamid)).calls.length ≤ 1 := by
  unfold resolveAndInsert
  split <;> simp [Run.tryCatch, Run.raise, Run.invoke]

theorem handleUpdate_calls_length (cfg : Config Cur NCur Sku) (u : Unicode)
    (p : Payload Cur) (it : Item) (nm : String) :
    (handleUpdate cfg u p it nm).calls.length ≤ 1 := by
  rw [handleUpdate_eq]
  by_cases h1 : truthy p.userAgent = true ∧ cfg.validateObject p.currencies = true
  · rw [if_pos h1]
    rcases attributeBlocked cfg.blockedAttributes it.attributes nm with _ | _ | _
    · simp [Run.raise]
    · by_cases h4 : p.steamid ∈ cfg.excludedSteamIds
      · simp [h4, Run.done]
      · simp only [h4, if_false]
        rcases p.details with _ | d
        · simp [Run.done]
        · by_cases h5 : d = ""
          · simp [h5, Run.done]
          · simp only [h5, if_false]
            rcases descriptionExcluded u cfg.excludedListingDescriptions d with _ | _ | _
            · simp [Run.raise]
            · exact resolveAndInsert_calls_length _ _ _ _ _ _
            · simp [Run.done]
    · simp [Run.done]
  · rw [if_neg h1]
    simp [Run.done]

theorem handleEvent_of_update (cfg : Config Cur NCur Sku) (u : Unicode) (e : Event Cur)
    (p : Payload Cur) (it : Item) (nm : String)
    (hp : e.payload = some p) (hi : p.item = some it) (hn : it.name = some nm)
    (hne : nm ≠ "") (hallow : nm ∈ cfg.getAllowedItemNames ())
    (hev : e.event = "listing-update") :
    handleEvent cfg u e = handleUpdate cfg u p it nm := by
  unfold handleEvent
  simp [hp, hi, hn, hne, hallow, hev]

theorem handleEvent_of_delete (cfg : Config Cur NCur Sku) (u : Unicode) (e : Event Cur)
    (p : Payload Cur) (it : Item) (nm : String)
    (hp : e.payload = some p) (hi : p.item = some it) (hn : it.name = some nm)
    (hne : nm ≠ "") (hallow : nm ∈ cfg.getAllowedItemNames ())
    (hev : e.event = "listing-delete") :
    handleEvent cfg u e = handleDelete cfg p nm := by
  unfold handleEvent
  simp [hp, hi, hn, hne, hallow, hev]

theorem handleEvent_calls_nonempty (cfg : Config Cur NCur Sku) (u : Unicode) (e : Event Cur)
    (h : (handleEvent cfg u e).calls ≠ []) :
    ∃ p it nm, e.payload = some p ∧ p.item = some it ∧ it.name = some nm ∧ nm ≠ "" ∧
      nm ∈ cfg.getAllowedItemNames () ∧
      ((e.event = "listing-update" ∧ handleEvent cfg u e = handleUpdate cfg u p it nm) ∨
       (e.event = "listing-delete" ∧ handleEvent cfg u e = handleDelete cfg p nm)) := by
  unfold handleEvent at h
  split at h
  · exact absurd rfl h
  · rename_i p hp
    split at h
    · exact absurd rfl h
    · rename_i it hi
      split at h
      · exact absurd rfl h
      · rename_i nm hn
        by_cases hne : nm = ""
        · simp [hne, Run.done] at h
        · by_cases hallow : nm ∈ cfg.getAllowedItemNames ()
          · refine ⟨p, it, nm, hp, hi, hn, hne, hallow, ?_⟩
            by_cases hu : e.event = "listing-update"
            · exact Or.inl ⟨hu, handleEvent_of_update cfg u e p it nm hp hi hn hne hallow hu⟩
            · by_cases hd : e.event = "listing-delete"
              · exact Or.inr ⟨hd, handleEvent_of_delete cfg u e p it nm hp hi hn hne hallow hd⟩
              · simp [hne, hallow, hu, hd, Run.done] at h
          · simp [hne, hallow, Run.done] at h

theorem handleUpdate_insert_mem (cfg : Config Cur NCur Sku) (u : Unicode) (p : Payload Cur)
    (it : Item) (nm : String) (call : SinkCall NCur Sku)
    (h : call ∈ (handleUpdate cfg u p it nm).calls) :
    truthy p.userAgent = true ∧ cfg.validateObject p.currencies = true ∧
      attributeBlocked cfg.blockedAttributes it.attributes nm = some false ∧
      p.steamid ∉ cfg.excludedSteamIds ∧
      (∃ d, p.details = some d ∧ d ≠ "" ∧
        descriptionExcluded u cfg.excludedListingDescriptions d = some false) ∧
      ∃ sku, cfg.getSkuFromName nm = Resolution.sku sku ∧
        call = SinkCall.insertListing it sku (cfg.createCurrencyObject p.currencies)
          p.intent p.steamid := by
  rw [handleUpdate_eq] at h
  by_cases h1 : truthy p.userAgent = true ∧ cfg.validateObject p.currencies = true
  · rw [if_pos h1] at h
    rcases hattr : attributeBlocked cfg.blockedAttributes it.attributes nm with _ | _ | _
    · rw [hattr] at h
      simp [Run.raise] at h
    · rw [hattr] at h
      by_cases h4 : p.steamid ∈ cfg.excludedSteamIds
      · simp [h4, Run.done] at h
      · simp only [h4, if_false] at h
        rcases hd : p.details with _ | d
        · rw [hd] at h
          simp [Run.done] at h
        · rw [hd] at h
          by_cases h5 : d = ""
          · simp [h5, Run.done] at h
          · simp only [h5, if_false] at h
            rcases hdesc : descriptionExcluded u cfg.excludedListingDescriptions d
              with _ | _ | _
            · rw [hdesc] at h
              simp [Run.raise] at h
            · rw [hdesc] at h
              dsimp only at h
              unfold resolveAndInsert at h
              split at h
              · simp [Run.tryCatch, Run.raise] at h
              · simp [Run.tryCatch, Run.raise] at h
              · simp [Run.tryCatch, Run.raise] at h
              · rename_i sku hsku
                simp [Run.tryCatch, Run.invoke] at h
                exact ⟨h1.1, h1.2, rfl, h4, ⟨d, rfl, h5, hdesc⟩, sku, hsku, h⟩
            · rw [hdesc] at h
              simp [Run.done] at h
    · rw [hattr] at h
      simp [Run.done] at h
  · rw [if_neg h1] at h
    simp [Run.done] at h

theorem handleUpdate_gates (cfg : Config Cur NCur Sku) (u : Unicode) (p : Payload Cur)
    (it : Item) (nm : String) (d : String)
    (hua : truthy p.userAgent = true) (hval : cfg.validateObject p.currencies = true)
    (hattr : attributeBlocked cfg.blockedAttributes it.attributes nm = some false)
    (hsteam : p.steamid ∉ cfg.excludedSteamIds)
    (hd : p.details = some d) (hdne : d ≠ "")
    (hdesc : descriptionExcluded u cfg.excludedListingDescriptions d = some false) :
    handleUpdate cfg u p it nm =
      Run.tryCatch (resolveAndInsert cfg it nm (cfg.createCurrencyObject p.currencies)
        p.intent p.steamid) := by
  rw [handleUpdate_eq]
  simp [hua, hval, hattr, hsteam, hd, hdne, hdesc]

theorem handleUpdate_accept (cfg : Config Cur NCur Sku) (u : Unicode) (p : Payload Cur)
    (it : Item) (nm : String) (d : String) (sku : Sku)
    (hua : truthy p.userAgent = true) (hval : cfg.validateObject p.currencies = true)
    (hattr : attributeBlocked cfg.blockedAttributes it.attributes nm = some false)
    (hsteam : p.steamid ∉ cfg.excludedSteamIds)
    (hd : p.details = some d) (hdne : d ≠ "")
    (hdesc : descriptionExcluded u cfg.excludedListingDescriptions d = some false)
    (hsku : cfg.getSkuFromName nm = Resolution.sku sku) :
    handleUpdate cfg u p it nm =
      ⟨[SinkCall.insertListing it sku (cfg.createCurrencyObject p.currencies)
          p.intent p.steamid], false⟩ := by
  rw [handleUpdate_gates cfg u p it nm d hua hval hattr hsteam hd hdne hdesc]
  unfold resolveAndInsert
  simp [hsku, Run.tryCatch, Run.invoke]

theorem handleUpdate_unresolved (cfg : Config Cur NCur Sku) (u : Unicode) (p : Payload Cur)
    (it : Item) (nm : String) (d : String)
    (hua : truthy p.userAgent = true) (hval : cfg.validateObject p.currencies = true)
    (hattr : attributeBlocked cfg.blockedAttributes it.attributes nm = some false)
    (hsteam : p.steamid ∉ cfg.excludedSteamIds)
    (hd : p.details = some d) (hdne : d ≠ "")
    (hdesc : descriptionExcluded u cfg.excludedListingDescriptions d = some false)
    (hfail : cfg.getSkuFromName nm = Resolution.throws ∨
      cfg.getSkuFromName nm = Resolution.null ∨
      cfg.getSkuFromName nm = Resolution.undefined) :
    handleUpdate cfg u p it nm = Run.done := by
  rw [handleUpdate_gates cfg u p it nm d hua hval hattr hsteam hd hdne hdesc]
  unfold resolveAndInsert
  rcases hfail with h | h | h <;> simp [h, Run.tryCatch, Run.raise, Run.done]

theorem handleUpdate_blocked (cfg : Config Cur NCur Sku) (u : Unicode) (p : Payload Cur)
    (it : Item) (nm : String)
    (hattr : attributeBlocked cfg.blockedAttributes it.attributes nm = some true) :
    handleUpdate cfg u p it nm = Run.done := by
  rw [handleUpdate_eq]
  simp only [hattr]
  split_ifs <;> rfl

theorem handleUpdate_no_details (cfg : Config Cur NCur Sku) (u : Unicode) (p : Payload Cur)
    (it : Item) (nm : String)
    (hattr : attributeBlocked cfg.blockedAttributes it.attributes nm = some false)
    (hd : truthy p.details = false) :
    handleUpdate cfg u p it nm = Run.done := by
  rw [handleUpdate_eq]
  simp only [hattr]
  cases hdet : p.details with
  | none => split_ifs <;> rfl
  | some d =>
    have hd0 : d = "" := by simpa [truthy, hdet] using hd
    simp only [hd0]
    split_ifs <;> rfl

theorem handleUpdate_description_excluded (cfg : Config Cur NCur Sku) (u : Unicode)
    (p : Payload Cur) (it : Item) (nm : String) (d : String)
    (hattr : attributeBlocked cfg.blockedAttributes it.attributes nm = some false)
    (hd : p.details = some d)
    (hdesc : descriptionExcluded u cfg.excludedListingDescriptions d = some true) :
    handleUpdate cfg u p it nm = Run.done := by
  rw [handleUpdate_eq]
  simp only [hattr, hd, hdesc]
  split_ifs <;> rfl

theorem attributeBlocked_of_zero (blocked : List (String × Int)) (attrs : List Attribute)
    (name : String)
    (h : ∀ a ∈ attrs, a = Attribute.primitive ∨ a = Attribute.object none ∨
      a = Attribute.object (some 0)) :
    attributeBlocked blocked (some attrs) name = some false := by
  show arraySome (blockedCallback blocked name) attrs = some false
  rw [arraySome_of_total _ (fun _ => false) attrs]
  · simp
  · intro a ha
    rcases h a ha with rfl | rfl | rfl <;> simp [blockedCallback]

theorem handleUpdate_congr_blocked (cfg : Config Cur NCur Sku) (u : Unicode)
    (p : Payload Cur) (it : Item) (nm : String) (blocked : List (String × Int))
    (h : attributeBlocked cfg.blockedAttributes it.attributes nm =
      attributeBlocked blocked it.attributes nm) :
    handleUpdate cfg u p it nm = handleUpdate (withBlockedAttributes cfg blocked) u p it nm := by
  unfold handleUpdate resolveAndInsert
  simp only [withBlockedAttributes, h]

theorem startsWith_spec : ∀ (k s : List Char), startsWith k s = true ↔ k <+: s
  | [], s => by simp [startsWith]
  | _ :: _, [] => by simp [startsWith]
  | k :: ks, c :: cs => by
      simp [startsWith, List.cons_prefix_cons, startsWith_spec ks cs]

theorem includes_spec (key : List Char) : ∀ s : List Char, includes s key = true ↔ key <:+: s
  | [] => by simp [includes, startsWith_spec]
  | c :: cs => by
      simp [includes, startsWith_spec, List.infix_cons_iff, includes_spec key cs]

theorem attributeBlocked_spec (blocked : List (String × Int))
    (attributes : Option (List Attribute)) (nm : String)
    (hnull : ∀ attrs, attributes = some attrs → Attribute.null ∉ attrs) :
    ∃ b, attributeBlocked blocked attributes nm = some b ∧
      (b = true ↔
        ∃ attrs, attributes = some attrs ∧ ∃ v, Attribute.object (some v) ∈ attrs ∧ v ≠ 0 ∧
          (∃ kv ∈ blocked, jsString kv.2 = jsString v) ∧
          ∀ kv ∈ blocked, ¬ kv.1.data <:+: nm.data) := by
  unfold attributeBlocked
  cases attributes with
  | none => exact ⟨false, rfl, by simp⟩
  | some attrs =>
    have hn : Attribute.null ∉ attrs := hnull attrs rfl
    refine ⟨attrs.any fun a => (blockedCallback blocked nm a).getD false, ?_, ?_⟩
    · show arraySome (blockedCallback blocked nm) attrs = _
      apply arraySome_of_total
      intro a ha
      rcases a with _ | _ | (_ | v)
      · rfl
      · exact absurd ha hn
      · rfl
      · rfl
    · simp only [List.any_eq_true, Option.some.injEq, exists_eq_left']
      constructor
      · rintro ⟨a, ha, hcond⟩
        rcases a with _ | _ | (_ | v)
        · simp [blockedCallback] at hcond
        · simp [blockedCallback] at hcond
        · simp [blockedCallback] at hcond
        · simp only [blockedCallback, Option.getD_some, Bool.and_eq_true, decide_eq_true_eq,
            Bool.not_eq_true', List.any_eq_false, List.mem_map, forall_exists_index,
            and_imp] at hcond
          obtain ⟨⟨hv, hmem⟩, hkeys⟩ := hcond
          refine ⟨v, ha, hv, ?_, ?_⟩
          · simp at hmem
            obtain ⟨a, b, hab, heq⟩ := hmem
            exact ⟨(a, b), hab, heq⟩
          · intro kv hkv hinf
            have := hkeys kv.1 kv hkv rfl
            rw [← includes_spec] at hinf
            simp [this] at hinf
      · rintro ⟨v, ha, hv, ⟨kv, hkv, heq⟩, hkeys⟩
        refine ⟨Attribute.object (some v), ha, ?_⟩
        simp only [blockedCallback, Option.getD_some, Bool.and_eq_true, decide_eq_true_eq,
            Bool.not_eq_true', List.any_eq_false, List.mem_map, forall_exists_index,
            and_imp]
        refine ⟨⟨hv, ?_⟩, ?_⟩
        · simp
          exact ⟨kv.1, kv.2, hkv, heq⟩
        · rintro key kv' hkv' rfl
          have := hkeys kv' hkv'
          rw [← includes_spec] at this
          simpa using this

theorem isLower_of_toNat (x : Char) (h : x.toNat ≥ 97 ∧ x.toNat ≤ 122) : x.isLower = true := by
  simp only [Char.isLower, Bool.and_eq_true, decide_eq_true_eq]
  simp only [Char.toNat] at h
  constructor
  · show (97 : UInt32) ≤ x.val
    rw [UInt32.le_def]
    exact h.1
  · show x.val ≤ (122 : UInt32)
    rw [UInt32.le_def]
    exact h.2

theorem toUpper_eq_or_isLower (x : Char) : x.toUpper = x ∨ x.isLower = true := by
  unfold Char.toUpper
  simp only []
  split_ifs with h
  · exact Or.inr (isLower_of_toNat x h)
  · exact Or.inl rfl

theorem ofNat_sub_isAlphanum : ∀ n < 123, 97 ≤ n → (Char.ofNat (n - 32)).isAlphanum = true := by
  decide

theorem toUpper_isAlphanum (c : Char) (h : c.isAlphanum = true) : c.toUpper.isAlphanum = true := by
  unfold Char.toUpper
  simp only []
  split_ifs with hc
  · exact ofNat_sub_isAlphanum _ (by omega) hc.1
  · exact h

theorem isWordChar_of_canonicalize_eq (x c : Char) (hc : c.isAlphanum = true)
    (h : canonicalize x = canonicalize c) : isWordChar x = true := by
  unfold canonicalize at h
  unfold isWordChar
  rcases toUpper_eq_or_isLower x with hx | hx
  · rw [hx] at h
    rw [h, toUpper_isAlphanum c hc]
    rfl
  · simp [Char.isAlphanum, Char.isAlpha, hx]

theorem lastSeen_eq (consumed : List Char) : ∀ prev : Option Char,
    lastSeen prev consumed = match consumed.getLast? with
      | some c => some c
      | none => prev := by
  induction consumed with
  | nil => intro prev; rfl
  | cons x rest ih =>
    intro prev
    show lastSeen (some x) rest = _
    rw [ih (some x), List.getLast?_cons]
    cases rest.getLast? <;> rfl

theorem matchHere_literal (w : List Char) : ∀ (prev : Option Char) (rest : List Char),
    matchHere (w.map Atom.char ++ [Atom.wordBoundary]) prev rest = true ↔
      ∃ mid post, rest = mid ++ post ∧ mid.map canonicalize = w.map canonicalize ∧
        atBoundary (lastSeen prev mid) post = true := by
  induction w with
  | nil =>
    intro prev rest
    simp only [List.map_nil, List.nil_append, matchHere, Bool.and_true, List.map_eq_nil_iff]
    constructor
    · intro h
      exact ⟨[], rest, rfl, rfl, h⟩
    · rintro ⟨mid, post, rfl, rfl, h⟩
      exact h
  | cons c w ih =>
    intro prev rest
    cases rest with
    | nil =>
      show false = true ↔ _
      constructor
      · intro h
        cases h
      · rintro ⟨mid, post, hrest, hmid, -⟩
        cases mid with
        | nil => simp at hmid
        | cons x mid => simp at hrest
    | cons x rest =>
      show (decide (canonicalize x = canonicalize c) &&
        matchHere (w.map Atom.char ++ [Atom.wordBoundary]) (some x) rest) = true ↔ _
      rw [Bool.and_eq_true, decide_eq_true_eq, ih]
      constructor
      · rintro ⟨hx, mid, post, rfl, hmid, hb⟩
        exact ⟨x :: mid, post, rfl, by simp [hx, hmid], hb⟩
      · rintro ⟨mid, post, hrest, hmid, hb⟩
        cases mid with
        | nil => simp at hmid
        | cons y mid =>
          simp only [List.cons_append, List.cons.injEq] at hrest
          obtain ⟨rfl, rfl⟩ := hrest
          simp only [List.map_cons, List.cons.injEq] at hmid
          exact ⟨hmid.1, mid, post, rfl, hmid.2, hb⟩

theorem matchFrom_iff (atoms : List Atom) : ∀ (text : List Char) (prev : Option Char),
    matchFrom atoms prev text = true ↔
      ∃ pre rest, text = pre ++ rest ∧ matchHere atoms (lastSeen prev pre) rest = true := by
  intro text
  induction text with
  | nil =>
    intro prev
    simp only [matchFrom]
    constructor
    · intro h
      exact ⟨[], [], rfl, h⟩
    · rintro ⟨pre, rest, h, hm⟩
      have h' := h.symm
      simp only [List.append_eq_nil] at h'
      obtain ⟨rfl, rfl⟩ := h'
      exact hm
  | cons x text ih =>
    intro prev
    simp only [matchFrom, Bool.or_eq_true, ih]
    constructor
    · rintro (h | ⟨pre, rest, rfl, hm⟩)
      · exact ⟨[], x :: text, rfl, h⟩
      · exact ⟨x :: pre, rest, rfl, hm⟩
    · rintro ⟨pre, rest, h, hm⟩
      cases pre with
      | nil =>
        simp only [List.nil_append] at h
        subst h
        exact Or.inl hm
      | cons y pre =>
        simp only [List.cons_append, List.cons.injEq] at h
        obtain ⟨rfl, rfl⟩ := h
        exact Or.inr ⟨pre, rest, rfl, hm⟩


theorem lastSeen_none (pre : List Char) : lastSeen none pre = pre.getLast? := by
  rw [lastSeen_eq]
  cases pre.getLast? <;> rfl

theorem lastSeen_mem (mid : List Char) (hmid : mid ≠ []) (prev : Option Char) :
    ∃ l ∈ mid, lastSeen prev mid = some l := by
  rw [lastSeen_eq]
  cases h : mid.getLast? with
  | none => exact absurd (List.getLast?_eq_none_iff.mp h) hmid
  | some l => exact ⟨l, List.mem_of_getLast?_eq_some h, rfl⟩

theorem isWordChar_of_map_eq (w mid : List Char) (hw : ∀ c ∈ w, c.isAlphanum = true)
    (h : mid.map canonicalize = w.map canonicalize) : ∀ x ∈ mid, isWordChar x = true := by
  intro x hx
  have hmem : canonicalize x ∈ w.map canonicalize := by
    rw [← h]
    exact List.mem_map_of_mem _ hx
  obtain ⟨c, hc, hcx⟩ := List.mem_map.mp hmem
  exact isWordChar_of_canonicalize_eq x c (hw c hc) hcx.symm

theorem atBoundary_before_word (prev : Option Char) (x : Char) (rest : List Char)
    (hx : isWordChar x = true) :
    atBoundary prev (x :: rest) = true ↔ ∀ c, prev = some c → isWordChar c = false := by
  cases prev with
  | none => simp [atBoundary, hx]
  | some c => simp [atBoundary, hx]

theorem atBoundary_after_word (l : Char) (post : List Char) (hl : isWordChar l = true) :
    atBoundary (some l) post = true ↔ ∀ c, post.head? = some c → isWordChar c = false := by
  cases post with
  | nil => simp [atBoundary, hl]
  | cons c post => simp [atBoundary, hl]

theorem wordTest_iff (detail : String) (hw : isAlphanumericWord detail)
    (text : List Char) :
    wordTest detail text = true ↔ OccursAsWholeWord detail.data text := by
  obtain ⟨hne, halnum⟩ := hw
  unfold wordTest pattern OccursAsWholeWord
  rw [matchFrom_iff]
  constructor
  · rintro ⟨pre, rest, rfl, hm⟩
    have hm' : (atBoundary (lastSeen none pre) rest &&
        matchHere (detail.data.map Atom.char ++ [Atom.wordBoundary]) (lastSeen none pre) rest)
          = true := hm
    rw [Bool.and_eq_true, matchHere_literal] at hm'
    obtain ⟨hb1, mid, post, rfl, hmid, hb2⟩ := hm'
    have hword := isWordChar_of_map_eq detail.data mid halnum hmid
    have hmne : mid ≠ [] := by
      intro h0
      rw [h0] at hmid
      exact hne (List.map_eq_nil_iff.mp hmid.symm)
    refine ⟨pre, mid, post, by simp, hmid, ?_, ?_⟩
    · cases mid with
      | nil => exact absurd rfl hmne
      | cons x mid' =>
        rw [List.cons_append, atBoundary_before_word _ x _ (hword x (List.mem_cons_self _ _)),
          lastSeen_none] at hb1
        exact hb1
    · obtain ⟨l, hl, hls⟩ := lastSeen_mem mid hmne (lastSeen none pre)
      rw [hls, atBoundary_after_word l post (hword l hl)] at hb2
      exact hb2
  · rintro ⟨pre, mid, post, rfl, hmid, hpre, hpost⟩
    have hword := isWordChar_of_map_eq detail.data mid halnum hmid
    have hmne : mid ≠ [] := by
      intro h0
      rw [h0] at hmid
      exact hne (List.map_eq_nil_iff.mp hmid.symm)
    refine ⟨pre, mid ++ post, by simp, ?_⟩
    show (atBoundary (lastSeen none pre) (mid ++ post) &&
        matchHere (detail.data.map Atom.char ++ [Atom.wordBoundary]) (lastSeen none pre)
          (mid ++ post)) = true
    rw [Bool.and_eq_true, matchHere_literal]
    constructor
    · cases mid with
      | nil => exact absurd rfl hmne
      | cons x mid' =>
        rw [List.cons_append, atBoundary_before_word _ x _ (hword x (List.mem_cons_self _ _)),
          lastSeen_none]
        exact hpre
    · refine ⟨mid, post, rfl, hmid, ?_⟩
      obtain ⟨l, hl, hls⟩ := lastSeen_mem mid hmne (lastSeen none pre)
      rw [hls, atBoundary_after_word l post (hword l hl)]
      exact hpost

theorem isWord_iff (s : String) : isWord s = true ↔ isAlphanumericWord s := by
  unfold isWord isAlphanumericWord
  simp [List.isEmpty_iff]

theorem newRegExp_word (u : Unicode) (detail : String) (h : isAlphanumericWord detail) :
    newRegExp u detail = some (wordTest detail) := by
  unfold newRegExp
  rw [if_pos ((isWord_iff detail).mpr h)]

theorem descriptionExcluded_spec (u : Unicode) (excluded : List String) (d : String)
    (hwords : ∀ entry ∈ excluded, isAlphanumericWord entry) :
    ∃ b, descriptionExcluded u excluded d = some b ∧
      (b = true ↔
        ∃ entry ∈ excluded, OccursAsWholeWord entry.data (normalizedDetails u d)) := by
  refine ⟨excluded.any fun detail => wordTest detail (normalizedDetails u d), ?_, ?_⟩
  · unfold descriptionExcluded
    apply arraySome_of_total
    intro entry hmem
    rw [newRegExp_word u entry (hwords entry hmem)]
  · rw [List.any_eq_true]
    constructor
    · rintro ⟨entry, hmem, h⟩
      exact ⟨entry, hmem, (wordTest_iff entry (hwords entry hmem) _).mp h⟩
    · rintro ⟨entry, hmem, h⟩
      exact ⟨entry, hmem, (wordTest_iff entry (hwords entry hmem) _).mpr h⟩

theorem handleUpdate_quiet (cfg : Config Cur NCur Sku) (u : Unicode) (p : Payload Cur)
    (it : Item) (nm : String)
    (hattr : attributeBlocked cfg.blockedAttributes it.attributes nm ≠ none)
    (hdesc : ∀ d, descriptionExcluded u cfg.excludedListingDescriptions d ≠ none) :
    (handleUpdate cfg u p it nm).threw = false := by
  rw [handleUpdate_eq]
  by_cases h1 : truthy p.userAgent = true ∧ cfg.validateObject p.currencies = true
  · rw [if_pos h1]
    rcases ha : attributeBlocked cfg.blockedAttributes it.attributes nm with _ | _ | _
    · exact absurd ha hattr
    · by_cases h4 : p.steamid ∈ cfg.excludedSteamIds
      · simp [h4, Run.done]
      · simp only [h4, if_false]
        rcases p.details with _ | d
        · rfl
        · by_cases h5 : d = ""
          · simp [h5, Run.done]
          · simp only [h5, if_false]
            rcases hde : descriptionExcluded u cfg.excludedListingDescriptions d with _ | _ | _
            · exact absurd hde (hdesc d)
            · rfl
            · rfl
    · rfl
  · rw [if_neg h1]
    rfl

theorem handleEvent_quiet (cfg : Config Cur NCur Sku) (u : Unicode) (e : Event Cur)
    (hwords : ∀ entry ∈ cfg.excludedListingDescriptions, isAlphanumericWord entry)
    (hnull : ∀ p it attrs, e.payload = some p → p.item = some it →
      it.attributes = some attrs → Attribute.null ∉ attrs) :
    (handleEvent cfg u e).threw = false := by
  unfold handleEvent
  rcases hp : e.payload with _ | p
  · rfl
  · dsimp only
    rcases hi : p.item with _ | it
    · rfl
    · dsimp only
      rcases hn : it.name with _ | nm
      · rfl
      · dsimp only
        split_ifs
        · rfl
        · apply handleUpdate_quiet
          · obtain ⟨b, hb, -⟩ := attributeBlocked_spec cfg.blockedAttributes it.attributes nm
              (fun attrs ha => hnull p it attrs hp hi ha)
            rw [hb]
            exact Option.some_ne_none b
          · intro d
            obtain ⟨b, hb, -⟩ := descriptionExcluded_spec u cfg.excludedListingDescriptions d
              hwords
            rw [hb]
            exact Option.some_ne_none b
        · rfl
        · rfl
        · rfl

end Facts

/-! ## The claims -/

section Claims

variable {Cur NCur Sku : Type}

/-- C4. Presence and allow-list gates: for an event of any kind, if a sink
(`insertListing` or `deleteRemovedListing`) is invoked while it is handled,
then `payload.item.name` is present, is not the empty string, and is a member
of the set returned by `getAllowedItemNames()`. -/
theorem C4_sink_requires_allowed_name (cfg : Config Cur NCur Sku) (u : Unicode)
    (e : Event Cur) (h : (handleEvent cfg u e).calls ≠ []) :
    ∃ p it nm, e.payload = some p ∧ p.item = some it ∧ it.name = some nm ∧ nm ≠ "" ∧
      nm ∈ cfg.getAllowedItemNames () := by
  obtain ⟨p, it, nm, hp, hi, hn, hne, hallow, -⟩ := handleEvent_calls_nonempty cfg u e h
  exact ⟨p, it, nm, hp, hi, hn, hne, hallow⟩

/-- C4, instance: the delete event for the allowed name `"Blue Hat"` invokes a
sink, and its name is then present and allowed. -/
theorem C4_sink_requires_allowed_name_witness :
    (handleEvent (sampleConfig []) asciiUnicode
        (sampleEvent "listing-delete" (sampleItem "Blue Hat" 5) none)).calls ≠ [] ∧
    ∃ p it nm,
      (sampleEvent "listing-delete" (sampleItem "Blue Hat" 5) none).payload = some p ∧
      p.item = some it ∧ it.name = some nm ∧ nm ≠ "" ∧
      nm ∈ (sampleConfig []).getAllowedItemNames () :=
  ⟨by decide,
    C4_sink_requires_allowed_name (sampleConfig []) asciiUnicode
      (sampleEvent "listing-delete" (sampleItem "Blue Hat" 5) none) (by decide)⟩

/-- C8. Delete path: for a `listing-delete` event whose `item.name` is present,
non-empty and allowed, `handleEvent` invokes `deleteRemovedListing` exactly once
with `(payload.steamid, payload.item.name, payload.intent)`, invokes nothing
else, and lets no exception escape, whatever `userAgent`, `currencies`,
`attributes`, `details` and `excludedSteamIds` are and whether or not the sink
throws. -/
theorem C8_delete_path (cfg : Config Cur NCur Sku) (u : Unicode) (e : Event Cur)
    (p : Payload Cur) (it : Item) (nm : String)
    (hev : e.event = "listing-delete")
    (hp : e.payload = some p) (hi : p.item = some it) (hn : it.name = some nm)
    (hne : nm ≠ "") (hallow : nm ∈ cfg.getAllowedItemNames ()) :
    handleEvent cfg u e =
      ⟨[SinkCall.deleteRemovedListing p.steamid nm p.intent], false⟩ := by
  rw [handleEvent_of_delete cfg u e p it nm hp hi hn hne hallow hev]
  rfl

/-- C8, instance: a delete event from an excluded steam id, without user agent
and with invalid currencies, handled with a delete sink that throws. -/
theorem C8_delete_path_witness :
    handleEvent (sampleConfig [("Hat", 5)]) asciiUnicode
        ⟨"listing-delete",
          some ⟨some (sampleItem "Blue Beanie" 5), "76561198000000666", "buy", none,
            some "scam", none⟩⟩ =
      ⟨[SinkCall.deleteRemovedListing "76561198000000666" "Blue Beanie" "buy"], false⟩ :=
  C8_delete_path (sampleConfig [("Hat", 5)]) asciiUnicode _ _ (sampleItem "Blue Beanie" 5)
    "Blue Beanie" rfl rfl rfl rfl (by decide) (by decide)

/-- C9. Soundness of the insert sink: for every event `insertListing` is
invoked at most once, and when it is invoked the event is a `listing-update`
with a truthy `userAgent`, raw currencies accepted by `validateObject`, a
`steamid` outside `excludedSteamIds` and a resolved sku that is neither `null`
nor `undefined`; the arguments are `(payload.item, getSkuFromName(item.name),
createCurrencyObject(payload.currencies), payload.intent, payload.steamid)`. -/
theorem C9_insert_sound (cfg : Config Cur NCur Sku) (u : Unicode) (e : Event Cur) :
    ((handleEvent cfg u e).calls.filter isInsert).length ≤ 1 ∧
    ∀ item sku cur intent steamid,
      SinkCall.insertListing item sku cur intent steamid ∈ (handleEvent cfg u e).calls →
      ∃ p nm, e.event = "listing-update" ∧ e.payload = some p ∧ p.item = some item ∧
        item.name = some nm ∧ truthy p.userAgent = true ∧
        cfg.validateObject p.currencies = true ∧ p.steamid ∉ cfg.excludedSteamIds ∧
        cfg.getSkuFromName nm = Resolution.sku sku ∧
        cur = cfg.createCurrencyObject p.currencies ∧ intent = p.intent ∧
        steamid = p.steamid := by
  by_cases hnil : (handleEvent cfg u e).calls = []
  · rw [hnil]
    exact ⟨by simp, fun _ _ _ _ _ h => absurd h (List.not_mem_nil _)⟩
  · obtain ⟨p, it, nm, hp, hi, hn, -, -, hcase⟩ := handleEvent_calls_nonempty cfg u e hnil
    rcases hcase with ⟨hev, heq⟩ | ⟨-, heq⟩
    · rw [heq]
      refine ⟨le_trans (List.length_filter_le _ _) (handleUpdate_calls_length cfg u p it nm), ?_⟩
      intro item sku cur intent steamid hmem
      obtain ⟨hua, hval, -, hsteam, -, sku', hsku, hcall⟩ :=
        handleUpdate_insert_mem cfg u p it nm _ hmem
      cases hcall
      exact ⟨p, nm, hev, hp, hi, hn, hua, hval, hsteam, hsku, rfl, rfl, rfl⟩
    · rw [heq]
      exact ⟨by simp [handleDelete, Run.tryCatch, Run.invoke, isInsert],
        fun _ _ _ _ _ h => by simp [handleDelete, Run.tryCatch, Run.invoke] at h⟩

/-- C9, instance: the update event for `"Blue Hat"` does invoke `insertListing`,
and the gates and arguments are as stated. -/
theorem C9_insert_sound_witness :
    SinkCall.insertListing (sampleItem "Blue Hat" 5) "Blue Hat;6" 3 "sell"
        "76561198000000001" ∈
      (handleEvent (sampleConfig [("Hat", 5)]) asciiUnicode
        (sampleEvent "listing-update" (sampleItem "Blue Hat" 5) (some "hello"))).calls ∧
    ∃ p nm,
      (sampleEvent "listing-update" (sampleItem "Blue Hat" 5) (some "hello")).event =
        "listing-update" ∧
      (sampleEvent "listing-update" (sampleItem "Blue Hat" 5) (some "hello")).payload =
        some p ∧
      p.item = some (sampleItem "Blue Hat" 5) ∧ (sampleItem "Blue Hat" 5).name = some nm ∧
      truthy p.userAgent = true ∧
      (sampleConfig [("Hat", 5)]).validateObject p.currencies = true ∧
      p.steamid ∉ (sampleConfig [("Hat", 5)]).excludedSteamIds ∧
      (sampleConfig [("Hat", 5)]).getSkuFromName nm = Resolution.sku "Blue Hat;6" ∧
      3 = (sampleConfig [("Hat", 5)]).createCurrencyObject p.currencies ∧
      "sell" = p.intent ∧ "76561198000000001" = p.steamid :=
  ⟨by decide,
    (C9_insert_sound (sampleConfig [("Hat", 5)]) asciiUnicode
      (sampleEvent "listing-update" (sampleItem "Blue Hat" 5) (some "hello"))).2
      _ _ _ _ _ (by decide)⟩

/-- C7. The scheduler registers exactly four timers, in this order:
`calculateAndEmitPrices` every 900000 ms, `cleanupOldKeyPrices(db)` every
1800000 ms, `checkKeyPriceStability` every 1800000 ms and
`updateMovingAverages(db, pgp)` every 900000 ms; it leaves the timers
registered before untouched, and the intervals `15 * 60 * 1000` and
`30 * 60 * 1000` are 900000 and 1800000. -/
theorem C7_scheduler_registrations (timers : List Timer) :
    scheduleTasks timers = timers ++
        [⟨Job.calculateAndEmitPrices, [], 900000⟩,
         ⟨Job.cleanupOldKeyPrices, [JobArg.db], 1800000⟩,
         ⟨Job.checkKeyPriceStability, [], 1800000⟩,
         ⟨Job.updateMovingAverages, [JobArg.db, JobArg.pgp], 900000⟩] ∧
      (scheduleTasks []).length = 4 ∧
      (((scheduleTasks []).map Timer.delay : List Nat) : Multiset Nat) =
        {900000, 1800000, 1800000, 900000} ∧
      15 * 60 * 1000 = 900000 ∧ 30 * 60 * 1000 = 1800000 := by
  refine ⟨?_, rfl, rfl, rfl, rfl⟩
  simp [scheduleTasks, setInterval]

/-- C10. Zero-value exemption of the attribute-block rule: when every attribute
of the item is not an object, or has no `float_value`, or has `float_value` 0,
the condition of the rule is false whatever `blockedAttributes` and the item
name are, and the event is handled exactly as with an empty
`blockedAttributes`. -/
theorem C10_zero_float_value_exempt (cfg : Config Cur NCur Sku) (u : Unicode)
    (e : Event Cur) (p : Payload Cur) (it : Item) (attrs : List Attribute)
    (hp : e.payload = some p) (hi : p.item = some it) (ha : it.attributes = some attrs)
    (hzero : ∀ a ∈ attrs, a = Attribute.primitive ∨ a = Attribute.object none ∨
      a = Attribute.object (some 0)) :
    (∀ name, attributeBlocked cfg.blockedAttributes it.attributes name = some false) ∧
      handleEvent cfg u e = handleEvent (withBlockedAttributes cfg []) u e := by
  have hfalse : ∀ name,
      attributeBlocked cfg.blockedAttributes it.attributes name = some false := by
    intro name
    rw [ha]
    exact attributeBlocked_of_zero _ attrs name hzero
  refine ⟨hfalse, ?_⟩
  have hupd : ∀ nm, handleUpdate cfg u p it nm =
      handleUpdate (withBlockedAttributes cfg []) u p it nm := fun nm =>
    handleUpdate_congr_blocked cfg u p it nm []
      ((hfalse nm).trans (by rw [ha]; exact (attributeBlocked_of_zero [] attrs nm hzero).symm))
  unfold handleEvent
  simp only [hp, hi]
  cases hn : it.name with
  | none => rfl
  | some nm =>
    simp only [hupd nm]
    rfl

/-- C10, instance: with `blockedAttributes = {"Hat": 0}`, an attribute with
`float_value: 0` and the item name `"Blue Beanie"`, the rule does not fire and
the event is forwarded. -/
theorem C10_zero_float_value_exempt_witness :
    (∀ name, attributeBlocked (sampleConfig [("Hat", 0)]).blockedAttributes
        (sampleItem "Blue Beanie" 0).attributes name = some false) ∧
      handleEvent (sampleConfig [("Hat", 0)]) asciiUnicode
          (sampleEvent "listing-update" (sampleItem "Blue Beanie" 0) (some "hello")) =
        handleEvent (withBlockedAttributes (sampleConfig [("Hat", 0)]) []) asciiUnicode
          (sampleEvent "listing-update" (sampleItem "Blue Beanie" 0) (some "hello")) :=
  C10_zero_float_value_exempt (sampleConfig [("Hat", 0)]) asciiUnicode
    (sampleEvent "listing-update" (sampleItem "Blue Beanie" 0) (some "hello")) _
    (sampleItem "Blue Beanie" 0) [Attribute.object (some 0)] rfl rfl rfl (by decide)

/-- C3, as stated, fails: the update event for the allowed name `"Gone"` passes
every earlier gate and has the non-empty details `"hello"`, every excluded
description is an alphanumeric word and none occurs in the normalized details,
yet `insertListing` is not invoked, because the sku lookup returns `null`. -/
theorem C3_counterexample :
    (sampleEvent "listing-update" (sampleItem "Gone" 7) (some "hello")).payload =
      some ⟨some (sampleItem "Gone" 7), "76561198000000001", "sell", some 3, some "hello",
        some "bot"⟩ ∧
    (sampleConfig [("Hat", 5)]).getSkuFromName "Gone" = Resolution.null ∧
    "Gone" ∈ (sampleConfig [("Hat", 5)]).getAllowedItemNames () ∧
    (sampleConfig [("Hat", 5)]).validateObject (some 3) = true ∧
    attributeBlocked (sampleConfig [("Hat", 5)]).blockedAttributes
      (sampleItem "Gone" 7).attributes "Gone" = some false ∧
    "76561198000000001" ∉ (sampleConfig [("Hat", 5)]).excludedSteamIds ∧
    (∀ entry ∈ (sampleConfig [("Hat", 5)]).excludedListingDescriptions,
      isAlphanumericWord entry) ∧
    (¬ ∃ entry ∈ (sampleConfig [("Hat", 5)]).excludedListingDescriptions,
      OccursAsWholeWord entry.data (normalizedDetails asciiUnicode "hello")) ∧
    (handleEvent (sampleConfig [("Hat", 5)]) asciiUnicode
      (sampleEvent "listing-update" (sampleItem "Gone" 7)
        (some "hello"))).calls.filter isInsert = [] := by
  have hwords : ∀ entry ∈ (sampleConfig [("Hat", 5)]).excludedListingDescriptions,
      isAlphanumericWord entry := by
    unfold isAlphanumericWord
    decide
  refine ⟨rfl, by decide, by decide, by decide, by decide, by decide, hwords, ?_, by decide⟩
  obtain ⟨b, hb, hiff⟩ := descriptionExcluded_spec asciiUnicode
    (sampleConfig [("Hat", 5)]).excludedListingDescriptions "hello" hwords
  intro hocc
  have hb' : descriptionExcluded asciiUnicode
      (sampleConfig [("Hat", 5)]).excludedListingDescriptions "hello" = some false := by
    decide
  rw [hb'] at hb
  cases hb
  exact absurd (hiff.mpr hocc) (by decide)

/-- C3, amended. Description exclusion: for a `listing-update` event that passes
every earlier gate, has a non-empty `details` string and a sku that resolves,
and for a list `excludedListingDescriptions` of alphanumeric words,
`insertListing` is not invoked if and only if some entry occurs as a whole
word, letter case ignored, in the NFKD-normalized, lowercased and trimmed
details; otherwise `insertListing` is invoked once with the usual
arguments. -/
theorem C3_description_exclusion (cfg : Config Cur NCur Sku) (u : Unicode) (e : Event Cur)
    (p : Payload Cur) (it : Item) (nm : String) (d : String) (sku : Sku)
    (hev : e.event = "listing-update")
    (hp : e.payload = some p) (hi : p.item = some it) (hn : it.name = some nm)
    (hne : nm ≠ "") (hallow : nm ∈ cfg.getAllowedItemNames ())
    (hua : truthy p.userAgent = true) (hval : cfg.validateObject p.currencies = true)
    (hattr : attributeBlocked cfg.blockedAttributes it.attributes nm = some false)
    (hsteam : p.steamid ∉ cfg.excludedSteamIds)
    (hd : p.details = some d) (hdne : d ≠ "")
    (hwords : ∀ entry ∈ cfg.excludedListingDescriptions, isAlphanumericWord entry)
    (hsku : cfg.getSkuFromName nm = Resolution.sku sku) :
    ((handleEvent cfg u e).calls.filter isInsert = [] ↔
      ∃ entry ∈ cfg.excludedListingDescriptions,
        OccursAsWholeWord entry.data (normalizedDetails u d)) ∧
    ((¬ ∃ entry ∈ cfg.excludedListingDescriptions,
        OccursAsWholeWord entry.data (normalizedDetails u d)) →
      handleEvent cfg u e =
        ⟨[SinkCall.insertListing it sku (cfg.createCurrencyObject p.currencies)
            p.intent p.steamid], false⟩) := by
  rw [handleEvent_of_update cfg u e p it nm hp hi hn hne hallow hev]
  obtain ⟨b, hdesc, hiff⟩ := descriptionExcluded_spec u cfg.excludedListingDescriptions d hwords
  rw [← hiff]
  cases b with
  | true =>
    rw [handleUpdate_description_excluded cfg u p it nm d hattr hd hdesc]
    simp [Run.done]
  | false =>
    rw [handleUpdate_accept cfg u p it nm d sku hua hval hattr hsteam hd hdne hdesc hsku]
    simp [isInsert]

/-- C3 amended, instance: with the excluded description `"scam"`, the details
`"This is a SCAM listing"` drop the event (the occurrence is `scam` between
`this is ` and ` listing`) and the details `"scammer-proof"` let it through. -/
theorem C3_description_exclusion_witness :
    (handleEvent (sampleConfig [("Hat", 5)]) asciiUnicode
        (sampleEvent "listing-update" (sampleItem "Blue Hat" 5)
          (some "This is a SCAM listing"))).calls.filter isInsert = [] ∧
    handleEvent (sampleConfig [("Hat", 5)]) asciiUnicode
        (sampleEvent "listing-update" (sampleItem "Blue Hat" 5) (some "scammer-proof")) =
      ⟨[SinkCall.insertListing (sampleItem "Blue Hat" 5) "Blue Hat;6" 3 "sell"
          "76561198000000001"], false⟩ :=
  have hwords : ∀ entry ∈ (sampleConfig [("Hat", 5)]).excludedListingDescriptions,
      isAlphanumericWord entry := by
    unfold isAlphanumericWord
    decide
  ⟨(C3_description_exclusion (sampleConfig [("Hat", 5)]) asciiUnicode
      (sampleEvent "listing-update" (sampleItem "Blue Hat" 5)
        (some "This is a SCAM listing")) _
      (sampleItem "Blue Hat" 5) "Blue Hat" "This is a SCAM listing" "Blue Hat;6"
      rfl rfl rfl rfl (by decide) (by decide) (by decide) (by decide) (by decide)
      (by decide) rfl (by decide) hwords (by decide)).1.2
      ⟨"scam", by decide, "this is a ".data, "scam".data, " listing".data, by decide,
        by decide, fun c h => by cases h; decide, fun c h => by cases h; decide⟩,
   (C3_description_exclusion (sampleConfig [("Hat", 5)]) asciiUnicode
      (sampleEvent "listing-update" (sampleItem "Blue Hat" 5) (some "scammer-proof")) _
      (sampleItem "Blue Hat" 5) "Blue Hat" "scammer-proof" "Blue Hat;6"
      rfl rfl rfl rfl (by decide) (by decide) (by decide) (by decide) (by decide)
      (by decide) rfl (by decide) hwords (by decide)).2
      (fun h =>
        match descriptionExcluded_spec asciiUnicode
          (sampleConfig [("Hat", 5)]).excludedListingDescriptions "scammer-proof" hwords with
        | ⟨true, hb, _⟩ => absurd hb (by decide)
        | ⟨false, _, hiff⟩ => absurd (hiff.mpr h) (by decide))⟩

/-- C1, as stated, fails: the update event for the allowed name `"Blue Hat"`
has a user agent, valid currencies, is not hit by the attribute-block rule,
comes from a steam id that is not excluded and has a resolvable sku, but has
no `details`; `handleEvent` invokes no sink for it, where the claim promises
one call of `insertListing`. The same holds with `details` the empty string. -/
theorem C1_counterexample :
    (sampleItem "Blue Hat" 5).name = some "Blue Hat" ∧
    "Blue Hat" ∈ (sampleConfig [("Hat", 5)]).getAllowedItemNames () ∧
    (sampleEvent "listing-update" (sampleItem "Blue Hat" 5) none).payload =
      some ⟨some (sampleItem "Blue Hat" 5), "76561198000000001", "sell", some 3, none,
        some "bot"⟩ ∧
    (sampleConfig [("Hat", 5)]).validateObject (some 3) = true ∧
    attributeBlocked (sampleConfig [("Hat", 5)]).blockedAttributes
      (sampleItem "Blue Hat" 5).attributes "Blue Hat" = some false ∧
    "76561198000000001" ∉ (sampleConfig [("Hat", 5)]).excludedSteamIds ∧
    (sampleConfig [("Hat", 5)]).getSkuFromName "Blue Hat" = Resolution.sku "Blue Hat;6" ∧
    (handleEvent (sampleConfig [("Hat", 5)]) asciiUnicode
      (sampleEvent "listing-update" (sampleItem "Blue Hat" 5) none)).calls = [] ∧
    (handleEvent (sampleConfig [("Hat", 5)]) asciiUnicode
      (sampleEvent "listing-update" (sampleItem "Blue Hat" 5) none)).calls ≠
      [SinkCall.insertListing (sampleItem "Blue Hat" 5) "Blue Hat;6" 3 "sell"
        "76561198000000001"] ∧
    (handleEvent (sampleConfig [("Hat", 5)]) asciiUnicode
      (sampleEvent "listing-update" (sampleItem "Blue Hat" 5) (some ""))).calls = [] := by
  decide

/-- C1, amended. For a `listing-update` event whose `item.name` is present and
allowed, whose `userAgent` is truthy, whose currencies pass `validateObject`,
which is not hit by the attribute-block rule, whose `steamid` is not excluded
and whose sku resolves: if `details` is absent or empty the event is dropped
and no sink is invoked; if `details` is a non-empty string for which the test
of the excluded descriptions completes with no match (every
`new RegExp("\\b" + detail + "\\b", "i")` is built and none matches the
normalized details), `insertListing` is invoked exactly once, with
`(item, sku, createCurrencyObject(currencies), intent, steamid)`. -/
theorem C1_details_required (cfg : Config Cur NCur Sku) (u : Unicode) (e : Event Cur)
    (p : Payload Cur) (it : Item) (nm : String) (sku : Sku)
    (hev : e.event = "listing-update")
    (hp : e.payload = some p) (hi : p.item = some it) (hn : it.name = some nm)
    (hne : nm ≠ "") (hallow : nm ∈ cfg.getAllowedItemNames ())
    (hua : truthy p.userAgent = true) (hval : cfg.validateObject p.currencies = true)
    (hattr : attributeBlocked cfg.blockedAttributes it.attributes nm = some false)
    (hsteam : p.steamid ∉ cfg.excludedSteamIds)
    (hsku : cfg.getSkuFromName nm = Resolution.sku sku) :
    (truthy p.details = false → handleEvent cfg u e = Run.done) ∧
    (∀ d, p.details = some d → d ≠ "" →
      descriptionExcluded u cfg.excludedListingDescriptions d = some false →
      handleEvent cfg u e =
        ⟨[SinkCall.insertListing it sku (cfg.createCurrencyObject p.currencies)
            p.intent p.steamid], false⟩) := by
  rw [handleEvent_of_update cfg u e p it nm hp hi hn hne hallow hev]
  constructor
  · intro hfalsy
    exact handleUpdate_no_details cfg u p it nm hattr hfalsy
  · intro d hd hdne hdesc
    exact handleUpdate_accept cfg u p it nm d sku hua hval hattr hsteam hd hdne hdesc hsku

/-- C1 amended, instance: the update event for `"Blue Hat"` is dropped without
`details` and forwarded with the details `"hello"`. -/
theorem C1_details_required_witness :
    handleEvent (sampleConfig [("Hat", 5)]) asciiUnicode
        (sampleEvent "listing-update" (sampleItem "Blue Hat" 5) none) = Run.done ∧
    handleEvent (sampleConfig [("Hat", 5)]) asciiUnicode
        (sampleEvent "listing-update" (sampleItem "Blue Hat" 5) (some "hello")) =
      ⟨[SinkCall.insertListing (sampleItem "Blue Hat" 5) "Blue Hat;6" 3 "sell"
          "76561198000000001"], false⟩ :=
  ⟨(C1_details_required (sampleConfig [("Hat", 5)]) asciiUnicode
      (sampleEvent "listing-update" (sampleItem "Blue Hat" 5) none) _
      (sampleItem "Blue Hat" 5) "Blue Hat" "Blue Hat;6" rfl rfl rfl rfl (by decide)
      (by decide) (by decide) (by decide) (by decide) (by decide) (by decide)).1 (by decide),
   (C1_details_required (sampleConfig [("Hat", 5)]) asciiUnicode
      (sampleEvent "listing-update" (sampleItem "Blue Hat" 5) (some "hello")) _
      (sampleItem "Blue Hat" 5) "Blue Hat" "Blue Hat;6" rfl rfl rfl rfl (by decide)
      (by decide) (by decide) (by decide) (by decide) (by decide) (by decide)).2
      "hello" rfl (by decide) (by decide)⟩

/-- C2, as stated, fails, in two ways. With `blockedAttributes = {"Hat": 0}`,
the item name `"Blue Beanie"` and an attribute object carrying
`float_value: 0`, the string form `"0"` of the value equals the string form of
a blocked value and the name contains no blocked key, and every other gate is
passed; yet the event is not dropped: `insertListing` is invoked. With
`blockedAttributes = {"Hat": 5}` and `attributes = [null]`, no attribute object
carries a `float_value`, yet `insertListing` is not invoked: reading
`attribute.float_value` throws and the exception leaves `handleEvent`. -/
theorem C2_counterexample :
    (Attribute.object (some 0) ∈ [Attribute.object (some 0)] ∧
      (sampleItem "Blue Beanie" 0).attributes = some [Attribute.object (some 0)] ∧
      (∃ kv ∈ (sampleConfig [("Hat", 0)]).blockedAttributes, jsString kv.2 = jsString 0) ∧
      (∀ kv ∈ (sampleConfig [("Hat", 0)]).blockedAttributes,
        ¬ kv.1.data <:+: "Blue Beanie".data) ∧
      handleEvent (sampleConfig [("Hat", 0)]) asciiUnicode
          (sampleEvent "listing-update" (sampleItem "Blue Beanie" 0) (some "hello")) =
        ⟨[SinkCall.insertListing (sampleItem "Blue Beanie" 0) "Blue Beanie;6" 3 "sell"
            "76561198000000001"], false⟩) ∧
    ((¬ ∃ v, Attribute.object (some v) ∈ [Attribute.null]) ∧
      handleEvent (sampleConfig [("Hat", 5)]) asciiUnicode
          (nullAttributeEvent "listing-update" "Blue Beanie") = ⟨[], true⟩) := by
  refine ⟨⟨by decide, rfl, ⟨("Hat", 0), by decide, by decide⟩, ?_, by decide⟩,
    by simp, by decide⟩
  intro kv hkv
  rw [← includes_spec]
  revert kv
  decide

/-- C2, amended. Attribute-block rule: for a `listing-update` event none of
whose attribute entries is `null` and that passes every other gate (name
present and allowed, `userAgent` truthy, currencies valid, `steamid` not
excluded, `details` non-empty and the test of the excluded descriptions
completing with no match, sku resolvable), `insertListing` is not invoked if
and only if some attribute object carries a non-zero `float_value` whose string
form equals the string form of some value of `blockedAttributes` and
`item.name` contains no key of `blockedAttributes` as a substring; otherwise
`insertListing` is invoked once with the usual arguments. -/
theorem C2_attribute_block_rule (cfg : Config Cur NCur Sku) (u : Unicode) (e : Event Cur)
    (p : Payload Cur) (it : Item) (nm : String) (d : String) (sku : Sku)
    (hev : e.event = "listing-update")
    (hp : e.payload = some p) (hi : p.item = some it) (hn : it.name = some nm)
    (hne : nm ≠ "") (hallow : nm ∈ cfg.getAllowedItemNames ())
    (hua : truthy p.userAgent = true) (hval : cfg.validateObject p.currencies = true)
    (hnull : ∀ attrs, it.attributes = some attrs → Attribute.null ∉ attrs)
    (hsteam : p.steamid ∉ cfg.excludedSteamIds)
    (hd : p.details = some d) (hdne : d ≠ "")
    (hdesc : descriptionExcluded u cfg.excludedListingDescriptions d = some false)
    (hsku : cfg.getSkuFromName nm = Resolution.sku sku) :
    ((handleEvent cfg u e).calls.filter isInsert = [] ↔
      ∃ attrs, it.attributes = some attrs ∧ ∃ v, Attribute.object (some v) ∈ attrs ∧ v ≠ 0 ∧
        (∃ kv ∈ cfg.blockedAttributes, jsString kv.2 = jsString v) ∧
        ∀ kv ∈ cfg.blockedAttributes, ¬ kv.1.data <:+: nm.data) ∧
    ((¬ ∃ attrs, it.attributes = some attrs ∧ ∃ v, Attribute.object (some v) ∈ attrs ∧
        v ≠ 0 ∧ (∃ kv ∈ cfg.blockedAttributes, jsString kv.2 = jsString v) ∧
        ∀ kv ∈ cfg.blockedAttributes, ¬ kv.1.data <:+: nm.data) →
      handleEvent cfg u e =
        ⟨[SinkCall.insertListing it sku (cfg.createCurrencyObject p.currencies)
            p.intent p.steamid], false⟩) := by
  rw [handleEvent_of_update cfg u e p it nm hp hi hn hne hallow hev]
  obtain ⟨b, hattr, hiff⟩ := attributeBlocked_spec cfg.blockedAttributes it.attributes nm hnull
  rw [← hiff]
  cases b with
  | true =>
    rw [handleUpdate_blocked cfg u p it nm hattr]
    simp [Run.done]
  | false =>
    rw [handleUpdate_accept cfg u p it nm d sku hua hval hattr hsteam hd hdne hdesc hsku]
    simp [isInsert]

/-- C2 amended, instance: with `blockedAttributes = {"Hat": 5}` and an attribute
with `float_value: 5`, the item `"Blue Beanie"` is dropped and the item
`"Blue Hat"` is forwarded. -/
theorem C2_attribute_block_rule_witness :
    (handleEvent (sampleConfig [("Hat", 5)]) asciiUnicode
        (sampleEvent "listing-update" (sampleItem "Blue Beanie" 5)
          (some "hello"))).calls.filter isInsert = [] ∧
    handleEvent (sampleConfig [("Hat", 5)]) asciiUnicode
        (sampleEvent "listing-update" (sampleItem "Blue Hat" 5) (some "hello")) =
      ⟨[SinkCall.insertListing (sampleItem "Blue Hat" 5) "Blue Hat;6" 3 "sell"
          "76561198000000001"], false⟩ :=
  ⟨(C2_attribute_block_rule (sampleConfig [("Hat", 5)]) asciiUnicode
      (sampleEvent "listing-update" (sampleItem "Blue Beanie" 5) (some "hello")) _
      (sampleItem "Blue Beanie" 5) "Blue Beanie" "hello" "Blue Beanie;6" rfl rfl rfl rfl
      (by decide) (by decide) (by decide) (by decide)
      (fun attrs h => by cases h; decide) (by decide) rfl (by decide)
      (by decide) (by decide)).1.2
      ⟨[Attribute.object (some 5)], rfl, 5, by decide, by decide,
        ⟨("Hat", 5), by decide, by decide⟩, by decide⟩,
   (C2_attribute_block_rule (sampleConfig [("Hat", 5)]) asciiUnicode
      (sampleEvent "listing-update" (sampleItem "Blue Hat" 5) (some "hello")) _
      (sampleItem "Blue Hat" 5) "Blue Hat" "hello" "Blue Hat;6" rfl rfl rfl rfl
      (by decide) (by decide) (by decide) (by decide)
      (fun attrs h => by cases h; decide) (by decide) rfl (by decide)
      (by decide) (by decide)).2
      (fun ⟨_, _, _, _, _, _, hkeys⟩ =>
        hkeys ("Hat", 5) (by decide) (by decide))⟩

/-- C5, as stated, fails. In the batch of three events the sku lookup is made
for the first event (it passes every gate before the lookup) and throws; the
second event has a `null` attribute entry, for which reading
`attribute.float_value` throws outside any `try`. The exception escapes the
message handler, and the third event, a delete that invokes its sink when
handled alone, is never handled. -/
theorem C5_counterexample :
    faultyBatch[0]? =
      some (sampleEvent "listing-update" (sampleItem "Bad" 7) (some "hello")) ∧
    "Bad" ∈ (sampleConfig [("Hat", 5)]).getAllowedItemNames () ∧
    (sampleConfig [("Hat", 5)]).validateObject (some 3) = true ∧
    attributeBlocked (sampleConfig [("Hat", 5)]).blockedAttributes
      (sampleItem "Bad" 7).attributes "Bad" = some false ∧
    "76561198000000001" ∉ (sampleConfig [("Hat", 5)]).excludedSteamIds ∧
    descriptionExcluded asciiUnicode (sampleConfig [("Hat", 5)]).excludedListingDescriptions
      "hello" = some false ∧
    (sampleConfig [("Hat", 5)]).getSkuFromName "Bad" = Resolution.throws ∧
    onMessage (sampleConfig [("Hat", 5)]) asciiUnicode (Message.batch faultyBatch) =
      ⟨[], true⟩ ∧
    faultyBatch[2]? =
      some (sampleEvent "listing-delete" (sampleItem "Blue Beanie" 5) none) ∧
    handleEvent (sampleConfig [("Hat", 5)]) asciiUnicode
        (sampleEvent "listing-delete" (sampleItem "Blue Beanie" 5) none) =
      ⟨[SinkCall.deleteRemovedListing "76561198000000001" "Blue Beanie" "sell"], false⟩ := by
  decide

/-- C5, amended. Fault isolation of the sku lookup in a batch: if the event at
index `i` of an array payload is a `listing-update` that passes every gate
before the lookup (name present and allowed, `userAgent` truthy, currencies
valid, attribute test and description test completing without a hit, `steamid`
not excluded, `details` non-empty) and `getSkuFromName` throws or returns
`null` or `undefined` for it, then that event invokes no sink and raises no
exception, and the message handler behaves exactly as for the batch without
the event at index `i`; if moreover no other event raises an uncaught
exception, none escapes the message handler and the sink invocations are
those of the other events, in order. -/
theorem C5_batch_fault_isolation (cfg : Config Cur NCur Sku) (u : Unicode)
    (es : List (Event Cur)) (i : Nat) (hi : i < es.length)
    (p : Payload Cur) (it : Item) (nm : String) (d : String)
    (hev : es[i].event = "listing-update")
    (hp : es[i].payload = some p) (hit : p.item = some it) (hn : it.name = some nm)
    (hne : nm ≠ "") (hallow : nm ∈ cfg.getAllowedItemNames ())
    (hua : truthy p.userAgent = true) (hval : cfg.validateObject p.currencies = true)
    (hattr : attributeBlocked cfg.blockedAttributes it.attributes nm = some false)
    (hsteam : p.steamid ∉ cfg.excludedSteamIds)
    (hd : p.details = some d) (hdne : d ≠ "")
    (hdesc : descriptionExcluded u cfg.excludedListingDescriptions d = some false)
    (hfail : cfg.getSkuFromName nm = Resolution.throws ∨
      cfg.getSkuFromName nm = Resolution.null ∨
      cfg.getSkuFromName nm = Resolution.undefined) :
    handleEvent cfg u es[i] = Run.done ∧
      onMessage cfg u (Message.batch es) =
        onMessage cfg u (Message.batch (es.eraseIdx i)) ∧
      ((∀ ev ∈ es.eraseIdx i, (handleEvent cfg u ev).threw = false) →
        onMessage cfg u (Message.batch es) =
          ⟨(es.eraseIdx i).flatMap (fun ev => (handleEvent cfg u ev).calls), false⟩) := by
  have hdone : handleEvent cfg u es[i] = Run.done := by
    rw [handleEvent_of_update cfg u es[i] p it nm hp hit hn hne hallow hev]
    exact handleUpdate_unresolved cfg u p it nm d hua hval hattr hsteam hd hdne hdesc hfail
  have herase : onMessage cfg u (Message.batch es) =
      onMessage cfg u (Message.batch (es.eraseIdx i)) :=
    forEach_eraseIdx (handleEvent cfg u) es i hi hdone
  refine ⟨hdone, herase, fun hquiet => ?_⟩
  rw [herase]
  exact forEach_quiet (handleEvent cfg u) (es.eraseIdx i) hquiet

/-- C5 amended, instance: in the batch of five events the lookup throws for the
third one; the handler behaves as for the batch without it, no exception
escapes, and the sink invocations are those of the first, second and fifth
events (the fourth is dropped by the attribute-block rule). -/
theorem C5_batch_fault_isolation_witness :
    (sampleConfig [("Hat", 5)]).getSkuFromName "Bad" = Resolution.throws ∧
    onMessage (sampleConfig [("Hat", 5)]) asciiUnicode (Message.batch sampleBatch) =
      onMessage (sampleConfig [("Hat", 5)]) asciiUnicode
        (Message.batch (sampleBatch.eraseIdx 2)) ∧
    onMessage (sampleConfig [("Hat", 5)]) asciiUnicode (Message.batch sampleBatch) =
      ⟨(sampleBatch.eraseIdx 2).flatMap
        (fun ev => (handleEvent (sampleConfig [("Hat", 5)]) asciiUnicode ev).calls), false⟩ ∧
    (sampleBatch.eraseIdx 2).flatMap
        (fun ev => (handleEvent (sampleConfig [("Hat", 5)]) asciiUnicode ev).calls) =
      [SinkCall.insertListing (sampleItem "Blue Hat" 5) "Blue Hat;6" 3 "sell"
         "76561198000000001",
       SinkCall.deleteRemovedListing "76561198000000001" "Blue Beanie" "sell",
       SinkCall.insertListing (sampleItem "Blue Hat" 9) "Blue Hat;6" 3 "sell"
         "76561198000000001"] :=
  have h := C5_batch_fault_isolation (sampleConfig [("Hat", 5)]) asciiUnicode sampleBatch 2
    (by decide) ⟨some (sampleItem "Bad" 7), "76561198000000001", "sell", some 3,
      some "hello", some "bot"⟩ (sampleItem "Bad" 7) "Bad" "hello" rfl rfl rfl rfl
    (by decide) (by decide) (by decide) (by decide) (by decide) (by decide) rfl
    (by decide) (by decide) (Or.inl (by decide))
  ⟨by decide, h.2.1, h.2.2 (by decide), by decide⟩

/-- C6, as stated, fails. For the array of an update with a `null` attribute
entry followed by a delete, the array produces no sink invocation (the
exception of the first element ends the loop), while the two elements handled
each as a single payload produce the delete invocation. The same happens with
the invalid excluded description `(`: `new RegExp` throws for the first
element and the delete that follows is lost. -/
theorem C6_counterexample :
    (onMessage (sampleConfig [("Hat", 5)]) asciiUnicode
        (Message.batch
          [nullAttributeEvent "listing-update" "Blue Hat",
           sampleEvent "listing-delete" (sampleItem "Blue Beanie" 5) none])).calls = [] ∧
    [nullAttributeEvent "listing-update" "Blue Hat",
      sampleEvent "listing-delete" (sampleItem "Blue Beanie" 5) none].flatMap
        (fun ev =>
          (onMessage (sampleConfig [("Hat", 5)]) asciiUnicode (Message.single ev)).calls) =
      [SinkCall.deleteRemovedListing "76561198000000001" "Blue Beanie" "sell"] ∧
    (onMessage (withExcludedDescriptions (sampleConfig [("Hat", 5)]) ["("]) asciiUnicode
        (Message.batch
          [sampleEvent "listing-update" (sampleItem "Blue Hat" 5) (some "hello"),
           sampleEvent "listing-delete" (sampleItem "Blue Beanie" 5) none])) =
      ⟨[], true⟩ ∧
    [sampleEvent "listing-update" (sampleItem "Blue Hat" 5) (some "hello"),
      sampleEvent "listing-delete" (sampleItem "Blue Beanie" 5) none].flatMap
        (fun ev =>
          (onMessage (withExcludedDescriptions (sampleConfig [("Hat", 5)]) ["("])
            asciiUnicode (Message.single ev)).calls) =
      [SinkCall.deleteRemovedListing "76561198000000001" "Blue Beanie" "sell"] := by
  decide

/-- C6, amended. Batch flattening: a single payload is passed to `handleEvent`,
and an array payload is handled by `forEach`, which calls its callback on each
element exactly once, in order, with no filtering. A single payload `e` and
the array `[e]` have the same effect. For an array none of whose elements
makes `handleEvent` raise an uncaught exception, the sink invocations are the
concatenation, in order, of the sink invocations of the elements each handled
as a single payload, and no exception escapes; this is the case when every
excluded description is an alphanumeric word and no attribute entry of an
element is `null`. When an element raises an
uncaught exception, the loop ends there: the sink invocations are those of the
elements up to and including it, and the exception escapes the handler. -/
theorem C6_batch_flattening (cfg : Config Cur NCur Sku) (u : Unicode)
    (es : List (Event Cur)) (e : Event Cur) :
    onMessage cfg u (Message.single e) = handleEvent cfg u e ∧
    onMessage cfg u (Message.batch es) = forEach (handleEvent cfg u) es ∧
    forEach (fun ev => Run.invoke ev Completion.returns) es = ⟨es, false⟩ ∧
    onMessage cfg u (Message.batch [e]) = onMessage cfg u (Message.single e) ∧
    ((∀ ev ∈ es, (handleEvent cfg u ev).threw = false) →
      onMessage cfg u (Message.batch es) =
        ⟨es.flatMap (fun ev => (onMessage cfg u (Message.single ev)).calls), false⟩) ∧
    ((∀ entry ∈ cfg.excludedListingDescriptions, isAlphanumericWord entry) →
      (∀ ev ∈ es, ∀ p it attrs, ev.payload = some p → p.item = some it →
        it.attributes = some attrs → Attribute.null ∉ attrs) →
      onMessage cfg u (Message.batch es) =
        ⟨es.flatMap (fun ev => (onMessage cfg u (Message.single ev)).calls), false⟩) ∧
    (∀ pre ev post, es = pre ++ ev :: post →
      (∀ x ∈ pre, (handleEvent cfg u x).threw = false) →
      (handleEvent cfg u ev).threw = true →
      onMessage cfg u (Message.batch es) =
        ⟨pre.flatMap (fun x => (handleEvent cfg u x).calls) ++ (handleEvent cfg u ev).calls,
          true⟩) := by
  refine ⟨rfl, rfl, forEach_record es, ?_, ?_, ?_, ?_⟩
  · show (handleEvent cfg u e).andThen Run.done = handleEvent cfg u e
    cases hr : handleEvent cfg u e with
    | mk calls threw => cases threw <;> simp [Run.andThen, Run.done]
  · intro hquiet
    exact forEach_quiet (handleEvent cfg u) es hquiet
  · intro hwords hnull
    exact forEach_quiet (handleEvent cfg u) es
      (fun ev hev => handleEvent_quiet cfg u ev hwords (hnull ev hev))
  · rintro pre ev post rfl hpre hev
    exact forEach_abort (handleEvent cfg u) ev post hev pre hpre

/-- C6 amended, instance: no element of the batch of five events throws, so its
sink invocations are the concatenation of those of its elements; in the batch
of three events the second element throws, so the handler stops there with the
invocations of the first element (none) and the exception escapes. -/
theorem C6_batch_flattening_witness :
    onMessage (sampleConfig [("Hat", 5)]) asciiUnicode (Message.batch sampleBatch) =
      ⟨sampleBatch.flatMap
        (fun ev =>
          (onMessage (sampleConfig [("Hat", 5)]) asciiUnicode (Message.single ev)).calls),
        false⟩ ∧
    onMessage (sampleConfig [("Hat", 5)]) asciiUnicode (Message.batch faultyBatch) =
      ⟨[sampleEvent "listing-update" (sampleItem "Bad" 7) (some "hello")].flatMap
          (fun x => (handleEvent (sampleConfig [("Hat", 5)]) asciiUnicode x).calls) ++
        (handleEvent (sampleConfig [("Hat", 5)]) asciiUnicode
          (nullAttributeEvent "listing-update" "Blue Hat")).calls, true⟩ :=
  ⟨(C6_batch_flattening (sampleConfig [("Hat", 5)]) asciiUnicode sampleBatch
      (sampleEvent "listing-delete" (sampleItem "Blue Beanie" 5) none)).2.2.2.2.1
      (by decide),
   (C6_batch_flattening (sampleConfig [("Hat", 5)]) asciiUnicode faultyBatch
      (sampleEvent "listing-delete" (sampleItem "Blue Beanie" 5) none)).2.2.2.2.2.2
      [sampleEvent "listing-update" (sampleItem "Bad" 7) (some "hello")]
      (nullAttributeEvent "listing-update" "Blue Hat")
      [sampleEvent "listing-delete" (sampleItem "Blue Beanie" 5) none]
      rfl (by decide) (by decide)⟩

end Claims

end Autopricer
